import Mathlib

/-!
Verification of the sandboxed file-operations core of `ms_ai_agent_tool`
(`src/ms_ai_agent_sample/tool_modules/file_tools.py`), shallowly embedded
in Lean 4.

Modelling conventions:
* Python strings are `List Char` (`PyStr`); `chars` injects Lean string
  literals.
* The filesystem is an explicit state `FS`: an association list from paths
  to file contents plus a list of existing directories.  `os.path.isfile`,
  `os.path.isdir` and `os.path.exists` become lookups in that state.
* Paths are taken to be already absolute and normalized, so
  `os.path.abspath` is the identity and is dropped; the environment pair
  (`ALLOW_OUTSIDE_MODIFICATIONS`, abspath of `PWD`) is the `Env` record.
* Python exceptions become `Except PyErr`; every `raise ValueError(...)` in
  the source is one of the `PyErr` constructors, distinguished by message.
* Python list slicing `xs[i:]` / `xs[:j]` (including its negative-index
  wrap-around) is modelled exactly by `pySliceFrom` / `pySliceTo`.
* `file.readlines()` and iteration over an open text file both split the
  content after every newline character, keeping the terminator; this is
  `pyReadlines`.
* `re.search(re.escape(s), line)` is a literal substring test, `pyContains`;
  `str.lower()` is `pyLower` (per-character lowering).
* `os.makedirs` is modelled as adding the target directory together with
  every ancestor segment of its path to the directory list.
-/

abbrev PyStr := List Char

/-- chars injects a Lean string literal into the `PyStr` model. -/
def chars (s : String) : PyStr := s.data

/-- pyStartsWith hay pre is Python `hay.startswith(pre)`. -/
def pyStartsWith : PyStr → PyStr → Bool
  | _, [] => true
  | [], _ :: _ => false
  | c :: cs, d :: ds => decide (c = d) && pyStartsWith cs ds

lemma pyStartsWith_nil_right (hay : PyStr) : pyStartsWith hay [] = true := by
  cases hay <;> rfl

/-- pyContains needle hay is Python `re.search(re.escape(needle), hay)`
viewed as a Boolean: a literal substring test. -/
def pyContains (needle : PyStr) : PyStr → Bool
  | [] => pyStartsWith [] needle
  | c :: rest => pyStartsWith (c :: rest) needle || pyContains needle rest

/-- pyLower models Python `str.lower()` by per-character lowering. -/
def pyLower (s : PyStr) : PyStr := s.map Char.toLower

/-- pyBasename models `os.path.basename`: the part after the last slash. -/
def pyBaseName (p : PyStr) : PyStr := ((p.splitOn '/').getLastD [])

/-- Python list slicing `xs[i:]` with a possibly negative index `i`. -/
def pySliceFrom (i : Int) (xs : List α) : List α :=
  if 0 ≤ i then xs.drop i.toNat else xs.drop (xs.length - (-i).toNat)

/-- Python list slicing `xs[:j]` with a possibly negative index `j`. -/
def pySliceTo (j : Int) (xs : List α) : List α :=
  if 0 ≤ j then xs.take j.toNat else xs.take (xs.length - (-j).toNat)

/-- readlinesAux acc s splits `acc ++ s` into lines, keeping the newline
terminators, where `acc` is the partial current line read so far. -/
def readlinesAux (acc : List Char) : List Char → List PyStr
  | [] => if acc = [] then [] else [acc]
  | c :: cs =>
    if c = '\n' then (acc ++ ['\n']) :: readlinesAux [] cs
    else readlinesAux (acc ++ [c]) cs

/-- pyReadlines models Python `file.readlines()` on the file content. -/
def pyReadlines (s : PyStr) : List PyStr := readlinesAux [] s

/-- Error taxonomy of the core: each constructor stands for one of the
`ValueError` messages raised in `file_tools.py`. -/
inductive PyErr where
  /-- "Outside file modification is not allowed." from
  `check_allow_outside_modification`. -/
  | sandboxViolation : PyErr
  /-- "The path ... is not a valid file." -/
  | notAFile : PyErr
  /-- "The path ... is not a valid directory." -/
  | notADirectory : PyErr
deriving DecidableEq, Repr

deriving instance DecidableEq for Except

/-- Env models the two environment variables read per call:
`allow_outside_modifications` is `os.getenv("ALLOW_OUTSIDE_MODIFICATIONS",
"false").lower() == "true"` and `allowed_directory` is
`os.path.abspath(os.getenv("PWD", "."))`. -/
structure Env where
  allow_outside_modifications : Bool
  allowed_directory : PyStr

/-- FS is the filesystem state: contents of regular files keyed by absolute
path, and the list of existing directories. -/
structure FS where
  files : List (PyStr × PyStr)
  dirs : List PyStr

/-- lookupAssoc finds the content bound to a path in the files list. -/
def lookupAssoc : List (PyStr × PyStr) → PyStr → Option PyStr
  | [], _ => none
  | (q, v) :: rest, p => if q = p then some v else lookupAssoc rest p

/-- insertAssoc binds a path to new content, replacing any old binding. -/
def insertAssoc : List (PyStr × PyStr) → PyStr → PyStr → List (PyStr × PyStr)
  | [], p, v => [(p, v)]
  | (q, w) :: rest, p, v =>
    if q = p then (q, v) :: rest else (q, w) :: insertAssoc rest p v

/-- removeAssoc deletes the binding of a path. -/
def removeAssoc : List (PyStr × PyStr) → PyStr → List (PyStr × PyStr)
  | [], _ => []
  | (q, w) :: rest, p =>
    if q = p then removeAssoc rest p else (q, w) :: removeAssoc rest p

/-- pyIsFile models `os.path.isfile`. -/
def pyIsFile (fs : FS) (p : PyStr) : Bool := (lookupAssoc fs.files p).isSome

/-- pyIsDir models `os.path.isdir`. -/
def pyIsDir (fs : FS) (p : PyStr) : Bool := decide (p ∈ fs.dirs)

/-- pyExists models `os.path.exists`. -/
def pyExists (fs : FS) (p : PyStr) : Bool := pyIsFile fs p || pyIsDir fs p

/-- check_allow_outside_modification, from `file_tools.py` lines 30-42:
if the allow flag is not true, raise unless the (absolute) candidate path
starts with the (absolute) allowed directory, by Python `str.startswith`. -/
def check_allow_outside_modification (env : Env) (file_path : PyStr) :
    Except PyErr Unit :=
  if env.allow_outside_modifications then .ok ()
  else if pyStartsWith file_path env.allowed_directory then .ok ()
  else .error .sandboxViolation

/-- read_file, from `file_tools.py` lines 127-151: require a regular file,
read all lines, slice by `start_line - 1` and by `end_line`, join. -/
def read_file (fs : FS) (file_path : PyStr)
    (start_line end_line : Option Int) : Except PyErr PyStr :=
  match lookupAssoc fs.files file_path with
  | none => .error .notAFile
  | some content =>
    let lines0 := pyReadlines content
    let lines1 := match start_line with
      | none => lines0
      | some i => pySliceFrom (i - 1) lines0
    let lines2 := match end_line with
      | none => lines1
      | some j => pySliceTo j lines1
    .ok lines2.flatten

/-- FileLineModel, from `file_tools.py` lines 20-27: one matching line with
its metadata. -/
structure FileLineModel where
  name : PyStr
  path : PyStr
  line_number : Nat
  content : PyStr
deriving DecidableEq, Repr

/-- adjust applies the case-insensitive lowering of `grep_in_file` (lines
176-178): when `case_sensitive` is false both sides are lowered. -/
def adjust (case_sensitive : Bool) (s : PyStr) : PyStr :=
  if case_sensitive then s else pyLower s

/-- grepLoop is the `for line_number, line in enumerate(file, start=1)` loop
body of `grep_in_file` (lines 172-186), carrying the next line number. -/
def grepLoop (file_path search_string : PyStr) (case_sensitive : Bool) :
    Nat → List PyStr → List FileLineModel
  | _, [] => []
  | line_number, line :: rest =>
    if pyContains (adjust case_sensitive search_string)
        (adjust case_sensitive line) then
      ⟨pyBaseName file_path, file_path, line_number, line⟩ ::
        grepLoop file_path search_string case_sensitive (line_number + 1) rest
    else grepLoop file_path search_string case_sensitive (line_number + 1) rest

/-- grep_in_file, from `file_tools.py` lines 153-188: require a regular
file, then scan its lines for a literal substring match. -/
def grep_in_file (fs : FS) (file_path search_string : PyStr)
    (case_sensitive : Bool) : Except PyErr (List FileLineModel) :=
  match lookupAssoc fs.files file_path with
  | none => .error .notAFile
  | some content =>
    .ok (grepLoop file_path search_string case_sensitive 1
      (pyReadlines content))

/-- write_to_file, from `file_tools.py` lines 190-208: sandbox check first,
then open in write or append mode and write the content. -/
def write_to_file (env : Env) (fs : FS) (file_path content : PyStr)
    (append : Bool) : Except PyErr (FS × Bool) :=
  match check_allow_outside_modification env file_path with
  | .error e => .error e
  | .ok _ =>
    let old := if append then (lookupAssoc fs.files file_path).getD []
      else []
    .ok ({ fs with files := insertAssoc fs.files file_path (old ++ content) },
      true)

/-- delete_file, from `file_tools.py` lines 210-227: sandbox check first,
then return false when the path is not a regular file, else remove it. -/
def delete_file (env : Env) (fs : FS) (file_path : PyStr) :
    Except PyErr (FS × Bool) :=
  match check_allow_outside_modification env file_path with
  | .error e => .error e
  | .ok _ =>
    if pyIsFile fs file_path then
      .ok ({ fs with files := removeAssoc fs.files file_path }, true)
    else .ok (fs, false)

/-- ancestorsAux acc p lists `acc ++ q` for every slash-closed partial path
`q` of `p`, ending with the full path: the directories `os.makedirs`
ensures exist. -/
def ancestorsAux (acc : PyStr) : PyStr → List PyStr
  | [] => [acc]
  | c :: cs =>
    if c = '/' then acc :: ancestorsAux (acc ++ [c]) cs
    else ancestorsAux (acc ++ [c]) cs

/-- pyMakedirsPaths p is the set of directories created (or found existing)
by `os.makedirs(p)`: `p` itself and every ancestor segment. -/
def pyMakedirsPaths (p : PyStr) : List PyStr := ancestorsAux [] p

/-- create_directory, from `file_tools.py` lines 229-246: sandbox check
first, then return false when the path exists (file or directory), else
`os.makedirs` it, parents included. -/
def create_directory (env : Env) (fs : FS) (directory_path : PyStr) :
    Except PyErr (FS × Bool) :=
  match check_allow_outside_modification env directory_path with
  | .error e => .error e
  | .ok _ =>
    if pyExists fs directory_path then .ok (fs, false)
    else .ok ({ fs with dirs := pyMakedirsPaths directory_path ++ fs.dirs },
      true)

/-- delete_directory, from `file_tools.py` lines 248-265: sandbox check
first, then return false when the path is not a directory, else remove it. -/
def delete_directory (env : Env) (fs : FS) (directory_path : PyStr) :
    Except PyErr (FS × Bool) :=
  match check_allow_outside_modification env directory_path with
  | .error e => .error e
  | .ok _ =>
    if pyIsDir fs directory_path then
      .ok ({ fs with dirs := fs.dirs.erase directory_path }, true)
    else .ok (fs, false)

/-- fs5 is a concrete state holding one five-line file under `/work`. -/
def fs5 : FS :=
  { files := [(chars "/work/f", chars "a\nb\nc\nd\ne")], dirs := [chars "/work"] }

/-- fsG is a concrete state holding one two-line file with mixed case. -/
def fsG : FS :=
  { files := [(chars "/work/g", chars "xAbcy\nzz\n")], dirs := [] }

lemma pyStartsWith_append (l r : PyStr) : pyStartsWith (l ++ r) l = true := by
  induction l with
  | nil => exact pyStartsWith_nil_right r
  | cons c cs ih => simp [pyStartsWith, ih]

/-- C1: with root `/work` and the allow-outside flag disabled, the check
accepts the sibling path `/work-evil/x` (no `SandboxViolation` is raised),
because `str.startswith` is a plain string-prefix test; it also accepts
`/work/x` as the claim states. -/
theorem check_accepts_sibling_of_root :
    check_allow_outside_modification ⟨false, chars "/work"⟩
      (chars "/work-evil/x") = .ok () ∧
    check_allow_outside_modification ⟨false, chars "/work"⟩
      (chars "/work/x") = .ok () := by decide

/-- C5: the authorization check succeeds whenever the allow-outside flag is
true, and, for any flag value, whenever the candidate path is the allowed
directory itself or is nested under it. -/
theorem check_ok_of_flag_or_under_root (env : Env) (p : PyStr)
    (h : env.allow_outside_modifications = true ∨ p = env.allowed_directory ∨
      ∃ rest, p = env.allowed_directory ++ '/' :: rest) :
    check_allow_outside_modification env p = .ok () := by
  rcases h with h | h | ⟨rest, h⟩
  · simp [check_allow_outside_modification, h]
  · subst h
    have hsw : pyStartsWith env.allowed_directory env.allowed_directory
        = true := by
      have := pyStartsWith_append env.allowed_directory []
      rwa [List.append_nil] at this
    simp [check_allow_outside_modification, hsw]
  · have hsw : pyStartsWith p env.allowed_directory = true := by
      rw [h]; exact pyStartsWith_append _ _
    simp [check_allow_outside_modification, hsw]

/-- C5 witness at root `/work`, flag false, candidate `/work/x`. -/
theorem check_ok_of_flag_or_under_root_witness :
    check_allow_outside_modification ⟨false, chars "/work"⟩
      (chars "/work/x") = .ok () :=
  check_ok_of_flag_or_under_root ⟨false, chars "/work"⟩ (chars "/work/x")
    (Or.inr (Or.inr ⟨chars "x", by decide⟩))

/-- C4: in all four mutation operations the sandbox check runs first: when
it fails, the operation fails with the same error on every filesystem
state, in particular in states where the operation would otherwise return
the soft result `false`. -/
theorem mutation_ops_check_sandbox_first (env : Env) (fs : FS)
    (p c : PyStr) (a : Bool) (e : PyErr)
    (h : check_allow_outside_modification env p = .error e) :
    write_to_file env fs p c a = .error e ∧
    delete_file env fs p = .error e ∧
    create_directory env fs p = .error e ∧
    delete_directory env fs p = .error e := by
  refine ⟨?_, ?_, ?_, ?_⟩ <;>
    simp only [write_to_file, delete_file, create_directory,
      delete_directory, h]

/-- C4 witness: `/etc/x` outside root `/work`, on the empty filesystem,
where `delete_file` would otherwise return `false`. -/
theorem mutation_ops_check_sandbox_first_witness :
    write_to_file ⟨false, chars "/work"⟩ ⟨[], []⟩ (chars "/etc/x") [] false
      = .error .sandboxViolation ∧
    delete_file ⟨false, chars "/work"⟩ ⟨[], []⟩ (chars "/etc/x")
      = .error .sandboxViolation ∧
    create_directory ⟨false, chars "/work"⟩ ⟨[], []⟩ (chars "/etc/x")
      = .error .sandboxViolation ∧
    delete_directory ⟨false, chars "/work"⟩ ⟨[], []⟩ (chars "/etc/x")
      = .error .sandboxViolation :=
  mutation_ops_check_sandbox_first ⟨false, chars "/work"⟩ ⟨[], []⟩
    (chars "/etc/x") [] false .sandboxViolation (by decide)

lemma mem_ancestorsAux (cs : PyStr) : ∀ acc : PyStr,
    acc ++ cs ∈ ancestorsAux acc cs := by
  induction cs with
  | nil => intro acc; simp [ancestorsAux]
  | cons c cs ih =>
    intro acc
    have h2 : (acc ++ [c]) ++ cs ∈ ancestorsAux (acc ++ [c]) cs := ih _
    rw [List.append_cons acc c cs]
    unfold ancestorsAux
    by_cases hc : c = '/'
    · subst hc
      simp only [if_pos rfl]
      exact List.mem_cons_of_mem _ h2
    · simp only [if_neg hc]
      exact h2

lemma self_mem_pyMakedirsPaths (p : PyStr) : p ∈ pyMakedirsPaths p := by
  simpa using mem_ancestorsAux p []

/-- C8: under a passing sandbox check, `create_directory` on an existing
path (file or directory) returns `false` and leaves the state unchanged;
on a non-existing path it returns `true` and the new state contains the
directory and every parent segment, with the files untouched. -/
theorem create_directory_existing_or_creates (env : Env) (fs : FS)
    (p : PyStr)
    (hok : check_allow_outside_modification env p = .ok ()) :
    (pyExists fs p = true → create_directory env fs p = .ok (fs, false)) ∧
    (pyExists fs p = false →
      ∃ fs', create_directory env fs p = .ok (fs', true) ∧
        fs'.files = fs.files ∧ p ∈ fs'.dirs ∧
        ∀ a ∈ pyMakedirsPaths p, a ∈ fs'.dirs) := by
  constructor
  · intro hex
    simp only [create_directory, hok, hex, if_pos]
  · intro hex
    refine ⟨{ fs with dirs := pyMakedirsPaths p ++ fs.dirs }, ?_, rfl, ?_, ?_⟩
    · simp only [create_directory, hok, hex, Bool.false_eq_true,
        if_false]
    · exact List.mem_append_left _ (self_mem_pyMakedirsPaths p)
    · intro a ha
      exact List.mem_append_left _ ha

/-- C8 witness: creating `/a/b` in the empty filesystem with the
allow-outside flag set. -/
theorem create_directory_existing_or_creates_witness :
    ∃ fs', create_directory ⟨true, []⟩ ⟨[], []⟩ (chars "/a/b")
        = .ok (fs', true) ∧
      fs'.files = ([] : List (PyStr × PyStr)) ∧ chars "/a/b" ∈ fs'.dirs ∧
      ∀ a ∈ pyMakedirsPaths (chars "/a/b"), a ∈ fs'.dirs :=
  (create_directory_existing_or_creates ⟨true, []⟩ ⟨[], []⟩ (chars "/a/b")
    (by decide)).2 (by decide)

lemma lookupAssoc_insertAssoc (l : List (PyStr × PyStr)) (p v : PyStr) :
    lookupAssoc (insertAssoc l p v) p = some v := by
  induction l with
  | nil => simp [insertAssoc, lookupAssoc]
  | cons qw rest ih =>
    obtain ⟨q, w⟩ := qw
    by_cases h : q = p
    · simp [insertAssoc, lookupAssoc, h]
    · simp [insertAssoc, lookupAssoc, h, ih]

/-- C9: for any authorized path, overwriting with `"hello"` and then
reading the whole file back returns exactly `"hello"`. -/
theorem write_then_read_roundtrip (env : Env) (fs : FS) (p : PyStr)
    (hok : check_allow_outside_modification env p = .ok ()) :
    ∃ fs', write_to_file env fs p (chars "hello") false = .ok (fs', true) ∧
      read_file fs' p none none = .ok (chars "hello") := by
  refine ⟨{ fs with files := insertAssoc fs.files p (chars "hello") }, ?_, ?_⟩
  · simp only [write_to_file, hok]
    simp
  · have hl := lookupAssoc_insertAssoc fs.files p (chars "hello")
    simp only [read_file, hl]
    rfl

/-- C9 witness at path `/work/f` on the empty filesystem. -/
theorem write_then_read_roundtrip_witness :
    ∃ fs', write_to_file ⟨true, []⟩ ⟨[], []⟩ (chars "/work/f")
        (chars "hello") false = .ok (fs', true) ∧
      read_file fs' (chars "/work/f") none none = .ok (chars "hello") :=
  write_then_read_roundtrip ⟨true, []⟩ ⟨[], []⟩ (chars "/work/f") (by decide)

/-- C10: `read_file` does not validate `start_line ≥ 1`: on a file whose
lines split as `ys ++ [y]` with `ys` nonempty (at least two lines),
`start_line = 0` becomes the Python slice `lines[-1:]`, so only the final
line `y` is returned; more generally a non-positive `start_line = -k`
returns the suffix of the last `k + 1` lines. -/
theorem read_file_start_zero_returns_last_line (fs : FS) (p content : PyStr)
    (ys : List PyStr) (y : PyStr)
    (h : lookupAssoc fs.files p = some content)
    (hsplit : pyReadlines content = ys ++ [y]) (_hys : ys ≠ []) :
    read_file fs p (some 0) none = .ok y ∧
    ∀ k : Nat, read_file fs p (some (-(k : Int))) none =
      .ok (((pyReadlines content).drop
        ((pyReadlines content).length - (k + 1))).flatten) := by
  constructor
  · simp only [read_file, h, hsplit, pySliceFrom]
    rw [if_neg (by norm_num)]
    have hlen : (-(0 - 1 : Int)).toNat = 1 := by norm_num
    rw [hlen]
    have hdrop : (ys ++ [y]).drop ((ys ++ [y]).length - 1) = [y] := by
      rw [List.length_append, List.length_singleton,
        Nat.add_sub_cancel, List.drop_left]
    rw [hdrop]
    simp
  · intro k
    simp only [read_file, h, pySliceFrom]
    rw [if_neg (by omega)]
    have hlen : (-(-(k : Int) - 1)).toNat = k + 1 := by omega
    rw [hlen]

/-- C10 witness on the five-line file: `read_file(f, 0)` returns only the
final line `e`. -/
theorem read_file_start_zero_returns_last_line_witness :
    read_file fs5 (chars "/work/f") (some 0) none = .ok (chars "e") :=
  (read_file_start_zero_returns_last_line fs5 (chars "/work/f")
    (chars "a\nb\nc\nd\ne")
    [chars "a\n", chars "b\n", chars "c\n", chars "d\n"] (chars "e")
    (by decide) (by decide) (by decide)).1

lemma pyContains_nil_left (hay : PyStr) : pyContains [] hay = true := by
  cases hay <;> simp [pyContains, pyStartsWith_nil_right]

lemma adjust_nil (cs : Bool) : adjust cs [] = [] := by
  cases cs <;> rfl

lemma pyStartsWith_iff (pre : PyStr) : ∀ hay : PyStr,
    pyStartsWith hay pre = true ↔ pre <+: hay := by
  induction pre with
  | nil => intro hay; simp [pyStartsWith_nil_right]
  | cons d ds ih =>
    intro hay
    cases hay with
    | nil => simp [pyStartsWith]
    | cons c cs =>
      have hstep : pyStartsWith (c :: cs) (d :: ds)
          = (decide (c = d) && pyStartsWith cs ds) := rfl
      rw [hstep]
      simp only [Bool.and_eq_true, decide_eq_true_eq,
        List.cons_prefix_cons, ih cs]
      constructor
      · rintro ⟨h1, h2⟩; exact ⟨h1.symm, h2⟩
      · rintro ⟨h1, h2⟩; exact ⟨h1.symm, h2⟩

lemma pyContains_iff (needle hay : PyStr) :
    pyContains needle hay = true ↔ needle <:+: hay := by
  induction hay with
  | nil => simp [pyContains, pyStartsWith_iff]
  | cons c rest ih =>
    simp [pyContains, ih, pyStartsWith_iff, List.infix_cons_iff]

lemma grepLoop_length_le (p s : PyStr) (cs : Bool) :
    ∀ (lines : List PyStr) (n : Nat),
      (grepLoop p s cs n lines).length ≤ lines.length := by
  intro lines
  induction lines with
  | nil => intro n; simp [grepLoop]
  | cons line rest ih =>
    intro n
    simp only [grepLoop]
    split
    · simpa using Nat.succ_le_succ (ih (n + 1))
    · exact Nat.le_succ_of_le (ih (n + 1))

lemma grepLoop_empty_needle (p : PyStr) (cs : Bool) :
    ∀ (lines : List PyStr) (n : Nat),
      grepLoop p [] cs n lines = (lines.enumFrom n).map
        (fun il => ⟨pyBaseName p, p, il.1, il.2⟩) := by
  intro lines
  induction lines with
  | nil => intro n; rfl
  | cons line rest ih =>
    intro n
    simp only [grepLoop, adjust_nil, if_pos (pyContains_nil_left _)]
    simp only [List.enumFrom, List.map_cons]
    rw [ih (n + 1)]

lemma grepLoop_sound (p s : PyStr) (cs : Bool) :
    ∀ (lines : List PyStr) (n : Nat) (r : FileLineModel),
      r ∈ grepLoop p s cs n lines →
      ∃ i line, lines[i]? = some line ∧
        r = ⟨pyBaseName p, p, n + i, line⟩ ∧
        pyContains (adjust cs s) (adjust cs line) = true := by
  intro lines
  induction lines with
  | nil => intro n r hr; simp [grepLoop] at hr
  | cons line rest ih =>
    intro n r hr
    simp only [grepLoop] at hr
    by_cases hc : pyContains (adjust cs s) (adjust cs line) = true
    · rw [if_pos hc] at hr
      rcases List.mem_cons.mp hr with h | h
      · exact ⟨0, line, by simp, h, hc⟩
      · obtain ⟨i, l, h1, h2, h3⟩ := ih (n + 1) r h
        have heq : n + 1 + i = n + (i + 1) := by omega
        rw [heq] at h2
        exact ⟨i + 1, l, by simpa using h1, h2, h3⟩
    · rw [if_neg hc] at hr
      obtain ⟨i, l, h1, h2, h3⟩ := ih (n + 1) r hr
      have heq : n + 1 + i = n + (i + 1) := by omega
      rw [heq] at h2
      exact ⟨i + 1, l, by simpa using h1, h2, h3⟩

lemma grepLoop_complete (p s : PyStr) (cs : Bool) :
    ∀ (lines : List PyStr) (n i : Nat) (line : PyStr),
      lines[i]? = some line →
      pyContains (adjust cs s) (adjust cs line) = true →
      (⟨pyBaseName p, p, n + i, line⟩ : FileLineModel) ∈
        grepLoop p s cs n lines := by
  intro lines
  induction lines with
  | nil => intro n i line h _; simp at h
  | cons hd rest ih =>
    intro n i line h hc
    cases i with
    | zero =>
      have hline : hd = line := by simpa using h
      subst hline
      simp only [grepLoop, if_pos hc]
      exact List.mem_cons_self _ _
    | succ j =>
      simp only [List.getElem?_cons_succ] at h
      have hmem := ih (n + 1) j line h hc
      have heq : n + 1 + j = n + (j + 1) := by omega
      rw [heq] at hmem
      simp only [grepLoop]
      split
      · exact List.mem_cons_of_mem _ hmem
      · exact hmem

/-- C6: on an existing file, searching for the empty needle returns one
`FileLineModel` per line, in file order; and for any needle each line
contributes at most one entry (the result is never longer than the file). -/
theorem grep_empty_needle_one_per_line (fs : FS) (p content : PyStr)
    (cs : Bool) (h : lookupAssoc fs.files p = some content) :
    grep_in_file fs p [] cs =
      .ok (((pyReadlines content).enumFrom 1).map
        (fun il => ⟨pyBaseName p, p, il.1, il.2⟩)) ∧
    ∀ needle rs, grep_in_file fs p needle cs = .ok rs →
      rs.length ≤ (pyReadlines content).length := by
  constructor
  · simp only [grep_in_file, h, grepLoop_empty_needle]
  · intro needle rs hrs
    simp only [grep_in_file, h] at hrs
    have hrs2 := Except.ok.inj hrs
    rw [← hrs2]
    exact grepLoop_length_le p needle cs (pyReadlines content) 1

/-- C6 witness on the five-line file. -/
theorem grep_empty_needle_one_per_line_witness :
    grep_in_file fs5 (chars "/work/f") [] true =
      .ok (((pyReadlines (chars "a\nb\nc\nd\ne")).enumFrom 1).map
        (fun il => ⟨pyBaseName (chars "/work/f"), chars "/work/f",
          il.1, il.2⟩)) :=
  (grep_empty_needle_one_per_line fs5 (chars "/work/f")
    (chars "a\nb\nc\nd\ne") true (by decide)).1

/-- C7: with `case_sensitive = false`, every returned entry's content is an
original line of the file (at the position its line number says, so never
lower-cased) whose lowering contains the lowered needle as a substring,
and conversely every line whose lowering contains the lowered needle
appears in the result. -/
theorem grep_case_insensitive_folded_substring (fs : FS)
    (p needle content : PyStr)
    (h : lookupAssoc fs.files p = some content) :
    ∀ rs, grep_in_file fs p needle false = .ok rs →
      (∀ r ∈ rs, pyLower needle <:+: pyLower r.content ∧
        (pyReadlines content)[r.line_number - 1]? = some r.content ∧
        r.name = pyBaseName p ∧ r.path = p) ∧
      (∀ i line, (pyReadlines content)[i]? = some line →
        pyLower needle <:+: pyLower line →
        (⟨pyBaseName p, p, i + 1, line⟩ : FileLineModel) ∈ rs) := by
  intro rs hrs
  simp only [grep_in_file, h] at hrs
  have hrs2 := Except.ok.inj hrs
  subst hrs2
  constructor
  · intro r hr
    obtain ⟨i, line, h1, h2, h3⟩ :=
      grepLoop_sound p needle false (pyReadlines content) 1 r hr
    subst h2
    refine ⟨?_, ?_, rfl, rfl⟩
    · have := (pyContains_iff _ _).mp h3
      simpa [adjust] using this
    · have heq : 1 + i - 1 = i := by omega
      rw [heq]
      exact h1
  · intro i line h1 h2
    have hc : pyContains (adjust false needle) (adjust false line)
        = true := by
      simp only [adjust, if_neg Bool.false_ne_true]
      exact (pyContains_iff _ _).mpr h2
    have hmem := grepLoop_complete p needle false
      (pyReadlines content) 1 i line h1 hc
    have heq : 1 + i = i + 1 := by omega
    rwa [heq] at hmem

/-- C7 witness: needle `ABC` finds the line `xAbcy\n`, reported with its
original casing. -/
theorem grep_case_insensitive_folded_substring_witness :
    (⟨pyBaseName (chars "/work/g"), chars "/work/g", 0 + 1,
      chars "xAbcy\n"⟩ : FileLineModel) ∈
      [(⟨chars "g", chars "/work/g", 1, chars "xAbcy\n"⟩ : FileLineModel)] :=
  (grep_case_insensitive_folded_substring fsG (chars "/work/g")
    (chars "ABC") (chars "xAbcy\nzz\n") (by decide)
    [⟨chars "g", chars "/work/g", 1, chars "xAbcy\n"⟩] (by decide)).2
    0 (chars "xAbcy\n") (by decide) (by decide)

/-- C2: on the five-line file `a\nb\nc\nd\ne`, `read_file` with bounds
(2, 4) returns lines 2 through 5, not lines 2 through 4: the `end_line`
slice is applied to the list already sliced by `start_line`, shifting the
end bound by `start_line - 1`. -/
theorem read_file_end_bound_shifted :
    read_file fs5 (chars "/work/f") (some 2) (some 4)
      = .ok (chars "b\nc\nd\ne") ∧
    chars "b\nc\nd\ne" ≠ chars "b\nc\nd\n" := by decide

/-- C3: on the five-line file, `start_line` beyond the end yields the empty
string and `end_line` beyond the end is clamped, as claimed; but
`read_file` with bounds (4, 2) returns lines 4 and 5 instead of the empty
string, again because the `end_line` slice acts on the already-sliced
list. -/
theorem read_file_inverted_bounds_not_empty :
    read_file fs5 (chars "/work/f") (some 10) none = .ok [] ∧
    read_file fs5 (chars "/work/f") (some 10) (some 20) = .ok [] ∧
    read_file fs5 (chars "/work/f") none (some 20)
      = .ok (chars "a\nb\nc\nd\ne") ∧
    read_file fs5 (chars "/work/f") (some 4) (some 2) = .ok (chars "d\ne") ∧
    chars "d\ne" ≠ [] := by decide
